import Mathlib

/-!
Verification of the Human-Counter estimation pipeline (api/estimate.js,
xAI variant).  The JavaScript numbers are modelled as real numbers
(rationals where no irrational constant is involved); `Math.round` is
Mathlib's `round` (both compute `⌊x + 1/2⌋`); the platform `Date` parser
and `JSON.parse` are external builtins and are modelled as abstract
function parameters.
-/

/-- Internal crowd levels (the `CrowdInternal` enum of the schema). -/
inductive Crowd where
  | empty
  | normal
  | crowded
deriving DecidableEq, Repr

/-- Place types produced by `detectPlaceType`. -/
inductive Place where
  | station
  | airport
  | mall
  | park
  | residential
  | office
  | school
  | tourist
  | generic
deriving DecidableEq, Repr

/-- Time-of-day slots produced by `parseLocalTimeInfo`. -/
inductive Slot where
  | morning_commute
  | lunch
  | evening_commute
  | night
  | early_morning
  | daytime
  | other
  | unknown
deriving DecidableEq, Repr

/-- Result of the platform `new Date(...)` parser on a parseable string:
the local hour (`getHours`, 0..23) and weekday (`getDay`, 0=Sun..6=Sat).
The JS `Date` parser is a platform builtin, so it enters the model as an
abstract function `String → Option DateInfo` (`none` = invalid date). -/
structure DateInfo where
  hour : Fin 24
  weekday : Fin 7
deriving DecidableEq

/-- Canonical input record produced by the input normalizer. -/
structure CanonicalInput where
  address : String
  feature : String
  crowd : Crowd
  radius_m : ℤ
  local_time_iso : Option String
deriving DecidableEq

/-- `{min, max}` integer range of an estimate. -/
structure RangeI where
  min : ℤ
  max : ℤ
deriving DecidableEq

/-- The output contract `{count, confidence, range, assumptions, notes}`. -/
structure EstimateResult where
  count : ℤ
  confidence : ℚ
  range : RangeI
  assumptions : List String
  notes : List String
deriving DecidableEq

/-- `leadsWith pat l` is true when `pat` is a prefix of `l`. -/
def leadsWith : List Char → List Char → Bool
  | [], _ => true
  | _ :: _, [] => false
  | a :: as, b :: bs => a == b && leadsWith as bs

/-- `occursInL pat l` is true when `pat` occurs contiguously inside `l`
(the JS `regex.test` for a plain-literal alternative). -/
def occursInL (pat : List Char) : List Char → Bool
  | [] => leadsWith pat []
  | b :: bs => leadsWith pat (b :: bs) || occursInL pat bs

/-- Substring test on strings. -/
def occursIn (pat s : String) : Bool := occursInL pat.data s.data

/-- Lower-cased character list of a string (JS `toLowerCase`). -/
def lowerS (s : String) : List Char := s.data.map Char.toLower

/-- True when some pattern of `pats` occurs in the (already lowered) text. -/
def anyIn (s : List Char) (pats : List String) : Bool :=
  pats.any fun p => occursInL p.data s

/-- `detectPlaceType` of api/estimate.js: first-match keyword heuristic over
the lower-cased `address ++ " " ++ feature` text, priority ordered
station > airport > mall > park > residential > office > school > tourist,
with `generic` as fallback. -/
def detectPlaceType (address feature : String) : Place :=
  let s := lowerS (address ++ " " ++ feature)
  if anyIn s ["station", "駅", "train", "metro", "subway", "terminal"] then .station
  else if anyIn s ["airport", "空港"] then .airport
  else if anyIn s ["mall", "shopping", "ショッピング", "百貨店", "デパート", "商業", "plaza", "outlet"] then .mall
  else if anyIn s ["park", "公園", "広場", "square"] then .park
  else if anyIn s ["residential", "住宅", "団地", "apartment", "マンション", "戸建"] then .residential
  else if anyIn s ["office", "オフィス", "ビジネス街", "business district"] then .office
  else if anyIn s ["school", "大学", "campus", "学校", "高校", "小学校", "中学校"] then .school
  else if anyIn s ["temple", "shrine", "神社", "寺", "観光", "tourist", "観光地", "観光客"] then .tourist
  else .generic

/-- The hour-to-slot chain of `parseLocalTimeInfo` (lines 90-97 of the
source): an ordered if/else chain ending in `other`. -/
def slotOfHour (h : Fin 24) : Slot :=
  if 7 ≤ h.val ∧ h.val ≤ 9 then .morning_commute
  else if 11 ≤ h.val ∧ h.val ≤ 13 then .lunch
  else if 17 ≤ h.val ∧ h.val ≤ 20 then .evening_commute
  else if 22 ≤ h.val ∨ h.val ≤ 4 then .night
  else if 5 ≤ h.val ∧ h.val ≤ 6 then .early_morning
  else if 10 ≤ h.val ∧ h.val ≤ 16 then .daytime
  else .other

/-- The record returned by `parseLocalTimeInfo` (the `iso` echo field is
omitted: it is produced by the platform `toISOString` and never read by
the pipeline). -/
structure TimeInfo where
  hour : Option (Fin 24)
  weekday : Option (Fin 7)
  weekend : Option Bool
  slot : Slot
deriving DecidableEq

/-- `parseLocalTimeInfo` of api/estimate.js: a missing or falsy (empty)
string, or one the platform date parser `dp` rejects, yields slot
`unknown`; otherwise the slot is read off the local hour. -/
def parseLocalTimeInfo (dp : String → Option DateInfo) : Option String → TimeInfo
  | none => ⟨none, none, none, .unknown⟩
  | some s =>
    if s = "" then ⟨none, none, none, .unknown⟩
    else
      match dp s with
      | none => ⟨none, none, none, .unknown⟩
      | some d =>
        ⟨some d.hour, some d.weekday, some (decide (d.weekday.val = 0 ∨ d.weekday.val = 6)),
          slotOfHour d.hour⟩

/-- A date parser that rejects every string (used to instantiate witnesses). -/
def dpNone : String → Option DateInfo := fun _ => none

/-- JSON-like JavaScript values a request payload field can hold. -/
inductive JSVal where
  | jnull
  | jbool (b : Bool)
  | jnum (q : ℚ)
  | jstr (s : String)
deriving DecidableEq

/-- A loosely-typed request payload: each field is absent (`none`,
JS `undefined`) or holds a JS value (possibly `null`).  A JSON body that
is itself `null` or a non-object corresponds to the all-absent payload
(the handler coerces such bodies to `{}` before normalizing). -/
structure Payload where
  address : Option JSVal := none
  crowd : Option JSVal := none
  feature : Option JSVal := none
  radius_m : Option JSVal := none
  radius : Option JSVal := none
  local_time_iso : Option JSVal := none
deriving DecidableEq

/-- Whitespace characters stripped by the JS `trim`. -/
def isWsp (c : Char) : Bool := c == ' ' || c == '\t' || c == '\n' || c == '\r'

/-- JS `String.prototype.trim` (model; restricted to the common whitespace). -/
def trimWs (s : String) : String :=
  ⟨((s.data.dropWhile isWsp).reverse.dropWhile isWsp).reverse⟩

/-- JS `String(v)` coercion (the numeral formatting of `toString` stands in
for the JS number formatting; only emptiness of the result matters to the
pipeline). -/
def jsToString : JSVal → String
  | .jnull => "null"
  | .jbool b => if b then "true" else "false"
  | .jnum q => toString q
  | .jstr s => s

/-- Models the platform `Number()` coercion on strings: whitespace-only
strings coerce to 0, optionally negated decimal strings to their value,
anything else to NaN (`none`).  (JS additionally accepts hex/exponent
forms; none of the claims depends on those.) -/
def strToNumber (s : String) : Option ℚ :=
  let t := trimWs s
  if t = "" then some 0
  else
    let sign : ℚ := if t.startsWith "-" then -1 else 1
    let u := if t.startsWith "-" then t.drop 1 else t
    match u.splitOn "." with
    | [a] => (a.toNat?).map fun n => sign * n
    | [a, b] =>
      match a.toNat?, b.toNat? with
      | some na, some nb => some (sign * (na + (nb : ℚ) / 10 ^ b.length))
      | _, _ => none
    | _ => none

/-- JS `Number(v)` coercion; `none` stands for NaN. -/
def jsToNumber : JSVal → Option ℚ
  | .jnull => some 0
  | .jbool b => some (if b then 1 else 0)
  | .jnum q => some q
  | .jstr s => strToNumber s

/-- Drops `null` the way `??` does: `undefined` and `null` both fall
through to the right operand. -/
def nonNull : Option JSVal → Option JSVal
  | some .jnull => none
  | none => none
  | some v => some v

/-- `a ?? b` on payload fields. -/
def coalesce (a b : Option JSVal) : Option JSVal :=
  match nonNull a with
  | some v => some v
  | none => nonNull b

/-- JS truthiness of a value. -/
def truthy : JSVal → Bool
  | .jnull => false
  | .jbool b => b
  | .jnum q => decide (q ≠ 0)
  | .jstr s => decide (s ≠ "")

/-- `String(input?.f ?? "").trim() || dflt`. -/
def strOrDefault (v : Option JSVal) (dflt : String) : String :=
  let s := trimWs (match nonNull v with | some w => jsToString w | none => "")
  if s = "" then dflt else s

/-- The crowd chain of `looseNormalize`: strict equality against the two
vocabularies, everything else falling to `empty`. -/
def crowdOfJS : Option JSVal → Crowd
  | some (.jstr s) =>
    if s = "混雑" ∨ s = "crowded" then .crowded
    else if s = "普通" ∨ s = "normal" then .normal
    else .empty
  | _ => .empty

/-- `looseNormalize` of api/estimate.js (lines 53-65): the total fallback
normalizer.  `radius_m ?? radius ?? 500` is coerced with `Number`, clamped
into `[10, 40_075_000]` and rounded when finite, and defaulted to 500
otherwise; `local_time_iso` is kept only when truthy. -/
def looseNormalize (p : Payload) : CanonicalInput :=
  let addr := strOrDefault p.address "unknown"
  let crowd := crowdOfJS p.crowd
  let feature := strOrDefault p.feature "people"
  let rq : Option ℚ :=
    match coalesce p.radius_m p.radius with
    | some v => jsToNumber v
    | none => some 500
  let radius_m : ℤ :=
    match rq with
    | some q => round (max 10 (min q 40075000))
    | none => 500
  let lt : Option String :=
    match nonNull p.local_time_iso with
    | some v => if truthy v then some (jsToString v) else none
    | none => none
  { address := addr, crowd := crowd, feature := feature,
    radius_m := radius_m, local_time_iso := lt }

/-- The crowd part of the zod `Schema` (lines 19-27): the union of the
Japanese and internal enums, transformed onto the internal one; strings
outside both enums are rejected (`none`). -/
def schemaCrowdNormalize (s : String) : Option Crowd :=
  if s = "空いている" ∨ s = "empty" then some .empty
  else if s = "普通" ∨ s = "normal" then some .normal
  else if s = "混雑" ∨ s = "crowded" then some .crowded
  else none

/-- Payload with the crowd field replaced. -/
def setCrowd (p : Payload) (v : JSVal) : Payload := { p with crowd := some v }

/-- Crowd factor of `serverSideSelfValidate` (crowded 1.8, normal 1.0,
everything else 0.5).  `neutralEstimate` uses the same chain. -/
noncomputable def crowdFactorOf : Crowd → ℝ
  | .crowded => 1.8
  | .normal => 1.0
  | _ => 0.5

/-- Recalibrated base densities (people/km²) of `serverSideSelfValidate`
(the `?? 2400` default of the source is unreachable: the table is total). -/
noncomputable def baselineByPlace : Place → ℝ
  | .station => 12000
  | .airport => 8800
  | .mall => 6000
  | .office => 4800
  | .school => 3200
  | .tourist => 4000
  | .residential => 1600
  | .park => 800
  | .generic => 2400

/-- Time factors of `serverSideSelfValidate` (the `?? 0.8` default of the
source is unreachable: the table is total, `unknown` mapping to 0.8). -/
noncomputable def timeFactorOf : Slot → ℝ
  | .morning_commute => 1.6
  | .lunch => 1.3
  | .evening_commute => 1.7
  | .daytime => 1.0
  | .early_morning => 0.5
  | .night => 0.3
  | .other => 0.8
  | .unknown => 0.8

/-- `area = π · r_km · r_km` with `r_km = max(0, radius_m)/1000`. -/
noncomputable def areaOf (radius_m : ℤ) : ℝ :=
  Real.pi * ((max 0 radius_m : ℤ) / 1000 : ℝ) * ((max 0 radius_m : ℤ) / 1000 : ℝ)

/-- The expected count recomputed by the Band Validator:
`area × base × time_factor × crowd_factor`. -/
noncomputable def expectedOf (dp : String → Option DateInfo) (i : CanonicalInput) : ℝ :=
  areaOf i.radius_m
    * baselineByPlace (detectPlaceType i.address i.feature)
    * timeFactorOf (parseLocalTimeInfo dp i.local_time_iso).slot
    * crowdFactorOf i.crowd

/-- `bandMin = Math.max(0, Math.round(expected * 0.6))`. -/
noncomputable def bandMinOf (dp : String → Option DateInfo) (i : CanonicalInput) : ℤ :=
  max 0 (round (expectedOf dp i * 0.6))

/-- `bandMax = Math.max(bandMin, Math.round(expected * 1.8))`. -/
noncomputable def bandMaxOf (dp : String → Option DateInfo) (i : CanonicalInput) : ℤ :=
  max (bandMinOf dp i) (round (expectedOf dp i * 1.8))

/-- The clamp of the validator: pull the count up to `bandMin` or down to
`bandMax` when it lies outside `[bandMin, bandMax]`. -/
def clampCount (c bMin bMax : ℤ) : ℤ :=
  if c < bMin then bMin else if bMax < c then bMax else c

/-- First self-check note of `serverSideSelfValidate` (ja/en). -/
def selfCheckNote (lang : String) (e bMin bMax : ℤ) : String :=
  if lang = "ja" then
    "自己検証: 期待値=" ++ toString e ++ ", 妥当帯=[" ++ toString bMin ++ "〜" ++ toString bMax ++ "]"
  else
    "Self-check: expected=" ++ toString e ++ ", plausible=[" ++ toString bMin ++ ".." ++ toString bMax ++ "]"

/-- Second note: adjusted vs passed (ja/en). -/
def adjustNote (lang : String) (changed : Bool) : String :=
  if lang = "ja" then
    if changed then "自己検証により推定値を妥当帯へ調整しました。"
    else "自己検証により推定値は妥当と判断されました。"
  else
    if changed then "Adjusted into plausible band based on self-validation."
    else "Estimate passed self-validation."

/-- Display form of the time factor used inside the `calc:` note. -/
def timeFactorText : Slot → String
  | .morning_commute => "1.6"
  | .lunch => "1.3"
  | .evening_commute => "1.7"
  | .daytime => "1"
  | .early_morning => "0.5"
  | .night => "0.3"
  | .other => "0.8"
  | .unknown => "0.8"

/-- Display form of the crowd factor used inside the `calc:` note. -/
def crowdFactorText : Crowd → String
  | .crowded => "1.8"
  | .normal => "1"
  | .empty => "0.5"

/-- The `calc:` note.  `Number(area.toFixed(6))` is rendered as the
micro-km² integer `round (area * 10^6)`; the factor literals come from
the display tables.  Only the shape and position of this note matter to
the claims, not its numeral formatting. -/
def calcNote (areaMicro base : ℤ) (tf cf : String) (e bMin bMax : ℤ) : String :=
  "calc: area_km2e-6=" ++ toString areaMicro ++ ", baseline=" ++ toString base
    ++ ", time_factor=" ++ tf ++ ", crowd_factor=" ++ cf
    ++ ", expected=" ++ toString e ++ ", band=[" ++ toString bMin ++ ".." ++ toString bMax ++ "]"

/-- Integer form of the base-density table (for the `calc:` note). -/
def baselineByPlaceZ : Place → ℤ
  | .station => 12000
  | .airport => 8800
  | .mall => 6000
  | .office => 4800
  | .school => 3200
  | .tourist => 4000
  | .residential => 1600
  | .park => 800
  | .generic => 2400

/-- `serverSideSelfValidate` of api/estimate.js (lines 272-332): recompute
the expected count from the input, clamp the result's count into the
rounded plausibility band, rebuild the range around the clamped count
(`-30% / +40%`, floored at 0), append the self-check / status / calc notes
and cut the list to its first 10 entries (`notes.slice(0, 10)`). -/
noncomputable def serverSideSelfValidate (dp : String → Option DateInfo)
    (out : EstimateResult) (i : CanonicalInput) (lang : String) : EstimateResult :=
  let e := expectedOf dp i
  let bMin := bandMinOf dp i
  let bMax := bandMaxOf dp i
  let changed : Bool := decide (out.count < bMin) || decide (bMax < out.count)
  let c := clampCount out.count bMin bMax
  let minRange := max 0 (round ((c : ℝ) * 0.7))
  let maxRange := max minRange (round ((c : ℝ) * 1.4))
  let notes := out.notes ++
    [selfCheckNote lang (round e) bMin bMax,
     adjustNote lang changed,
     calcNote (round (areaOf i.radius_m * 1000000))
       (baselineByPlaceZ (detectPlaceType i.address i.feature))
       (timeFactorText (parseLocalTimeInfo dp i.local_time_iso).slot)
       (crowdFactorText i.crowd) (round e) bMin bMax]
  { count := c, confidence := out.confidence,
    range := { min := minRange, max := maxRange },
    assumptions := out.assumptions, notes := notes.take 10 }

/-- `neutralEstimate` of api/estimate.js (lines 250-264): the heuristic
fallback, reading only `radius_m` and `crowd` (the JS function
destructures exactly those two fields). -/
noncomputable def neutralEstimate (i : CanonicalInput) : EstimateResult :=
  let r_km : ℝ := ((max 0 i.radius_m : ℤ) : ℝ) / 1000
  let area := Real.pi * r_km * r_km
  let est := max 0 (round (area * 1600 * crowdFactorOf i.crowd))
  let spread := round ((est : ℝ) * 0.35 + 15)
  { count := est, confidence := 0.55,
    range := { min := max 0 (est - spread), max := est + spread },
    assumptions := ["Heuristic estimate used."],
    notes := ["Neutral estimate (no API value)."] }

/-- Remainder of the text after the first case-insensitive occurrence of
the opening fence "```json" (the `i`-flag of the fenced regex). -/
def dropToFence : List Char → Option (List Char)
  | [] => none
  | c :: rest =>
    if (List.map Char.toLower ((c :: rest).take 7)) = "```json".data
    then some ((c :: rest).drop 7)
    else dropToFence rest

/-- Characters before the first closing fence "```"; `none` when the text
has no closing fence (the lazy capture of the fenced regex). -/
def takeToClose : List Char → Option (List Char)
  | [] => none
  | c :: rest =>
    if (List.map Char.toLower ((c :: rest).take 3)) = "```".data
    then some []
    else (takeToClose rest).map (c :: ·)

/-- Capture group of `/```json([\s\S]*?)```/i` applied to `content`:
content of the first fenced json block, `none` when the regex does not
match. -/
def fencedCapture (content : String) : Option String :=
  (dropToFence content.data).bind fun r => (takeToClose r).map fun l => ⟨l⟩

/-- Index of the first occurrence of a character (JS `indexOf`). -/
def firstIdxAux (c : Char) : List Char → Option Nat
  | [] => none
  | x :: xs => if x = c then some 0 else (firstIdxAux c xs).map (· + 1)

/-- Index of the last occurrence of a character (JS `lastIndexOf`). -/
def lastIdxAux (c : Char) (l : List Char) : Option Nat :=
  match firstIdxAux c l.reverse with
  | some i => some (l.length - 1 - i)
  | none => none

/-- `tryParseJSON` of api/estimate.js (lines 231-245, identical in the
other handler variants): sequential try/catch rescue of a JSON object
from model text.  `parse` is the platform `JSON.parse`, modelled
abstractly (`none` = parse exception). -/
def tryParseJSON {α : Type} (parse : String → Option α) (content : String) : Option α :=
  let fenceAttempt : Option α :=
    match fencedCapture content with
    | some cap => if cap = "" then none else parse (trimWs cap)
    | none => none
  match fenceAttempt with
  | some v => some v
  | none =>
    let braceAttempt : Option α :=
      match firstIdxAux '\x7b' content.data, lastIdxAux '\x7d' content.data with
      | some fi, some li =>
        if fi < li then parse ⟨(content.data.drop fi).take (li + 1 - fi)⟩ else none
      | _, _ => none
    match braceAttempt with
    | some v => some v
    | none => parse content

/-- Strategy (a) of the spec's extraction chain: the content of a fenced
```json block (nonempty capture, trimmed). -/
def strategyFenced {α : Type} (parse : String → Option α) (content : String) : Option α :=
  match fencedCapture content with
  | some cap => if cap = "" then none else parse (trimWs cap)
  | none => none

/-- Strategy (b): the substring from the first opening brace to the last
closing brace, when the latter comes strictly later. -/
def strategyBrace {α : Type} (parse : String → Option α) (content : String) : Option α :=
  match firstIdxAux '\x7b' content.data, lastIdxAux '\x7d' content.data with
  | some fi, some li =>
    if fi < li then parse ⟨(content.data.drop fi).take (li + 1 - fi)⟩ else none
  | _, _ => none

/-- Strategy (c): the whole text verbatim. -/
def strategyWhole {α : Type} (parse : String → Option α) (content : String) : Option α :=
  parse content

lemma validate_count_def (dp : String → Option DateInfo) (out : EstimateResult)
    (i : CanonicalInput) (lang : String) :
    (serverSideSelfValidate dp out i lang).count
      = clampCount out.count (bandMinOf dp i) (bandMaxOf dp i) := rfl

lemma validate_range_def (dp : String → Option DateInfo) (out : EstimateResult)
    (i : CanonicalInput) (lang : String) :
    (serverSideSelfValidate dp out i lang).range
      = { min := max 0 (round ((clampCount out.count (bandMinOf dp i) (bandMaxOf dp i) : ℝ) * 0.7)),
          max := max (max 0 (round ((clampCount out.count (bandMinOf dp i) (bandMaxOf dp i) : ℝ) * 0.7)))
            (round ((clampCount out.count (bandMinOf dp i) (bandMaxOf dp i) : ℝ) * 1.4)) } := rfl

lemma bandMin_nonneg (dp : String → Option DateInfo) (i : CanonicalInput) :
    0 ≤ bandMinOf dp i := le_max_left _ _

lemma bandMin_le_bandMax (dp : String → Option DateInfo) (i : CanonicalInput) :
    bandMinOf dp i ≤ bandMaxOf dp i := le_max_left _ _

lemma clampCount_lb {c bMin bMax : ℤ} (h : bMin ≤ bMax) : bMin ≤ clampCount c bMin bMax := by
  unfold clampCount; split_ifs <;> omega

lemma clampCount_ub {c bMin bMax : ℤ} (h : bMin ≤ bMax) : clampCount c bMin bMax ≤ bMax := by
  unfold clampCount; split_ifs <;> omega

lemma clampCount_id {c bMin bMax : ℤ} (h1 : bMin ≤ c) (h2 : c ≤ bMax) :
    clampCount c bMin bMax = c := by
  unfold clampCount; split_ifs <;> omega

lemma validate_count_nonneg (dp : String → Option DateInfo) (out : EstimateResult)
    (i : CanonicalInput) (lang : String) :
    0 ≤ (serverSideSelfValidate dp out i lang).count := by
  rw [validate_count_def]
  exact le_trans (bandMin_nonneg dp i) (clampCount_lb (bandMin_le_bandMax dp i))

lemma round_mul07_le {c : ℤ} (hc : 0 ≤ c) : round ((c : ℝ) * 0.7) ≤ c := by
  have hc' : (0 : ℝ) ≤ (c : ℝ) := by exact_mod_cast hc
  rw [round_eq]
  have h : ⌊(c : ℝ) * 0.7 + 1 / 2⌋ < c + 1 := by
    apply Int.floor_lt.mpr
    push_cast
    linarith
  omega

lemma le_round_mul14 {c : ℤ} (hc : 0 ≤ c) : c ≤ round ((c : ℝ) * 1.4) := by
  have hc' : (0 : ℝ) ≤ (c : ℝ) := by exact_mod_cast hc
  rw [round_eq]
  apply Int.le_floor.mpr
  linarith

lemma round_mul07_nonneg {c : ℤ} (hc : 0 ≤ c) : 0 ≤ round ((c : ℝ) * 0.7) := by
  have hc' : (0 : ℝ) ≤ (c : ℝ) := by exact_mod_cast hc
  rw [round_eq]
  apply Int.le_floor.mpr
  norm_num
  linarith

/-- C2: after the Band Validator runs, the output satisfies
`0 ≤ range.min ≤ count ≤ range.max`: the rebuilt range always brackets
the (possibly clamped) count. -/
theorem c2_range_brackets_count (dp : String → Option DateInfo) (out : EstimateResult)
    (i : CanonicalInput) (lang : String) :
    0 ≤ (serverSideSelfValidate dp out i lang).range.min
    ∧ (serverSideSelfValidate dp out i lang).range.min ≤ (serverSideSelfValidate dp out i lang).count
    ∧ (serverSideSelfValidate dp out i lang).count ≤ (serverSideSelfValidate dp out i lang).range.max := by
  have hc0 := validate_count_nonneg dp out i lang
  rw [validate_count_def] at hc0 ⊢
  rw [validate_range_def]
  refine ⟨le_max_left _ _, ?_, ?_⟩
  · exact max_le hc0 (round_mul07_le hc0)
  · exact le_trans (le_round_mul14 hc0) (le_max_right _ _)

/-- C9: the Band Validator unconditionally overwrites the result's range:
for every incoming result the output range is exactly
`min = round(0.7 × final count)` and `max = max(min, round(1.4 × final count))`,
and the incoming range is entirely discarded (replacing it changes
nothing in the output). -/
theorem c9_range_overwritten (dp : String → Option DateInfo) (out : EstimateResult)
    (i : CanonicalInput) (lang : String) :
    (serverSideSelfValidate dp out i lang).range.min
      = round (((serverSideSelfValidate dp out i lang).count : ℝ) * 0.7)
    ∧ (serverSideSelfValidate dp out i lang).range.max
      = max (round (((serverSideSelfValidate dp out i lang).count : ℝ) * 0.7))
        (round (((serverSideSelfValidate dp out i lang).count : ℝ) * 1.4))
    ∧ ∀ r' : RangeI, serverSideSelfValidate dp { out with range := r' } i lang
        = serverSideSelfValidate dp out i lang := by
  have hc0 := validate_count_nonneg dp out i lang
  rw [validate_count_def] at hc0
  have hmin : max 0 (round ((clampCount out.count (bandMinOf dp i) (bandMaxOf dp i) : ℝ) * 0.7))
      = round ((clampCount out.count (bandMinOf dp i) (bandMaxOf dp i) : ℝ) * 0.7) :=
    max_eq_right (round_mul07_nonneg hc0)
  refine ⟨?_, ?_, fun r' => rfl⟩
  · rw [validate_range_def, validate_count_def]
    exact hmin
  · rw [validate_range_def, validate_count_def]
    exact congrArg (· ⊔ round ((clampCount out.count (bandMinOf dp i) (bandMaxOf dp i) : ℝ) * 1.4)) hmin

/-- C10: the heuristic fallback `neutralEstimate` depends only on
`radius_m` and `crowd`: inputs agreeing on those two fields produce the
identical estimate record (count, confidence, range, assumptions, notes),
whatever their address, feature or timestamp. -/
theorem c10_neutral_radius_crowd_only (i₁ i₂ : CanonicalInput)
    (hr : i₁.radius_m = i₂.radius_m) (hc : i₁.crowd = i₂.crowd) :
    neutralEstimate i₁ = neutralEstimate i₂ := by
  unfold neutralEstimate
  rw [hr, hc]

/-- Two inputs differing in address, feature and timestamp but with equal
radius and crowd: `neutralEstimate` cannot tell them apart. -/
def iFallbackA : CanonicalInput :=
  { address := "Shibuya Station", feature := "commuters", crowd := .normal,
    radius_m := 500, local_time_iso := none }

def iFallbackB : CanonicalInput :=
  { address := "a quiet park", feature := "tourists", crowd := .normal,
    radius_m := 500, local_time_iso := some "2024-01-01T12:00:00" }

theorem c10_neutral_radius_crowd_only_witness :
    neutralEstimate iFallbackA = neutralEstimate iFallbackB :=
  c10_neutral_radius_crowd_only iFallbackA iFallbackB rfl rfl

/-- C8: `tryParseJSON` tries, in this fixed order, (a) the content of a
fenced json block, (b) the substring from the first opening to the last
closing brace, (c) the whole text verbatim, returning the first
successfully parsed value; and it returns `none` (never throwing) exactly
when every strategy fails, which is the signal that routes the caller to
the heuristic fallback. -/
theorem c8_tryParseJSON_strategy_order {α : Type} (parse : String → Option α) (content : String) :
    tryParseJSON parse content
      = ((strategyFenced parse content).orElse fun _ =>
          (strategyBrace parse content).orElse fun _ => strategyWhole parse content)
    ∧ (tryParseJSON parse content = none
        ↔ strategyFenced parse content = none ∧ strategyBrace parse content = none
          ∧ strategyWhole parse content = none) := by
  have key : tryParseJSON parse content
      = match strategyFenced parse content with
        | some v => some v
        | none =>
          match strategyBrace parse content with
          | some v => some v
          | none => strategyWhole parse content := rfl
  rw [key]
  cases hF : strategyFenced parse content with
  | some v => simp [Option.orElse]
  | none =>
    cases hB : strategyBrace parse content with
    | some v => simp [Option.orElse]
    | none =>
      cases hW : strategyWhole parse content with
      | some v => simp [Option.orElse]
      | none => simp [Option.orElse]

example : fencedCapture "say ```json 1 ``` done" = some " 1 " := by decide

example : tryParseJSON (fun s => if s = "1" then some 1 else none) "say ```JSON 1 ``` done"
    = some 1 := by decide

example : tryParseJSON (fun s => if s = "\x7b1\x7d" then some 7 else none) "noise \x7b1\x7d noise"
    = some 7 := by decide

example : tryParseJSON (fun _ => (none : Option Nat)) "no json at all" = none := rfl

/-- The hour-range table exactly as the claim states it, as an ordered
first-match chain: 07-09 morning_commute, 11-13 lunch, 17-20
evening_commute, 22-04 night (wrapping midnight), 05-06 early_morning,
10-16 daytime, else other. -/
def slotSpecTable (h : Fin 24) : Slot :=
  if 7 ≤ h.val ∧ h.val ≤ 9 then .morning_commute
  else if 11 ≤ h.val ∧ h.val ≤ 13 then .lunch
  else if 17 ≤ h.val ∧ h.val ≤ 20 then .evening_commute
  else if 22 ≤ h.val ∨ h.val ≤ 4 then .night
  else if 5 ≤ h.val ∧ h.val ≤ 6 then .early_morning
  else if 10 ≤ h.val ∧ h.val ≤ 16 then .daytime
  else .other

/-- C7: time-slot classification follows the hour-range table exactly:
an absent timestamp gives slot `unknown`, an unparsable one gives
`unknown`, a parseable one is classified from its local hour by
`slotOfHour`, and `slotOfHour` agrees with the claim's table on all 24
hours (in particular hour 21 is the only `other` hour). -/
theorem c7_time_slot_table :
    (∀ dp : String → Option DateInfo, (parseLocalTimeInfo dp none).slot = .unknown)
    ∧ (∀ (dp : String → Option DateInfo) (s : String), dp s = none →
        (parseLocalTimeInfo dp (some s)).slot = .unknown)
    ∧ (∀ (dp : String → Option DateInfo) (s : String) (d : DateInfo), dp s = some d → s ≠ "" →
        (parseLocalTimeInfo dp (some s)).slot = slotOfHour d.hour)
    ∧ (∀ h : Fin 24, slotOfHour h = slotSpecTable h) := by
  refine ⟨fun dp => rfl, ?_, ?_, by decide⟩
  · intro dp s h
    simp only [parseLocalTimeInfo]
    split_ifs with hs
    · rfl
    · rw [h]
  · intro dp s d h hs
    simp only [parseLocalTimeInfo]
    split_ifs with hs'
    · exact absurd hs' hs
    · rw [h]

/-- A date parser that accepts every string as Wednesday noon. -/
def dpNoon : String → Option DateInfo := fun _ => some { hour := 12, weekday := 3 }

theorem c7_time_slot_table_witness :
    (parseLocalTimeInfo dpNone none).slot = .unknown
    ∧ (parseLocalTimeInfo dpNone (some "2025-13-99")).slot = .unknown
    ∧ (parseLocalTimeInfo dpNoon (some "2025-06-02T12:30:00")).slot = Slot.lunch
    ∧ slotOfHour (21 : Fin 24) = slotSpecTable (21 : Fin 24) := by
  refine ⟨c7_time_slot_table.1 dpNone, c7_time_slot_table.2.1 dpNone _ rfl, ?_,
    c7_time_slot_table.2.2.2 (21 : Fin 24)⟩
  have h := c7_time_slot_table.2.2.1 dpNoon "2025-06-02T12:30:00"
    { hour := 12, weekday := 3 } rfl (by decide)
  rw [h]
  decide

lemma round_clamp_500 : round ((10 : ℚ) ⊔ (500 : ℚ) ⊓ 40075000) = 500 := by
  have h1 : ((500 : ℚ) ⊓ 40075000) = 500 := min_eq_left (by norm_num)
  have h2 : ((10 : ℚ) ⊔ (500 : ℚ)) = 500 := max_eq_right (by norm_num)
  rw [h1, h2, round_eq]
  norm_num

lemma round_clamp_mem (q : ℚ) :
    10 ≤ round (max 10 (min q 40075000)) ∧ round (max 10 (min q 40075000)) ≤ 40075000 := by
  have h1 : (10 : ℚ) ≤ max 10 (min q 40075000) := le_max_left _ _
  have h2 : max 10 (min q 40075000) ≤ 40075000 :=
    max_le (by norm_num) (min_le_right _ _)
  rw [round_eq]
  constructor
  · apply Int.le_floor.mpr
    push_cast
    linarith
  · have : ⌊max 10 (min q 40075000) + 1 / 2⌋ < 40075001 := by
      apply Int.floor_lt.mpr
      push_cast
      linarith
    omega

/-- C5: the loose normalizer is total and never rejects: on every payload
the produced `radius_m` lies in `[10, 40_075_000]`, a missing/empty
address defaults to "unknown", a missing/empty feature to "people", a
missing or non-numeric radius (Number() = NaN) to 500, and an
unrecognized crowd value to `empty`. -/
theorem c5_looseNormalize_total_defaults (p : Payload) :
    (10 ≤ (looseNormalize p).radius_m ∧ (looseNormalize p).radius_m ≤ 40075000)
    ∧ ((p.address = none ∨ p.address = some JSVal.jnull ∨ p.address = some (JSVal.jstr "")) →
        (looseNormalize p).address = "unknown")
    ∧ ((p.feature = none ∨ p.feature = some JSVal.jnull ∨ p.feature = some (JSVal.jstr "")) →
        (looseNormalize p).feature = "people")
    ∧ (coalesce p.radius_m p.radius = none → (looseNormalize p).radius_m = 500)
    ∧ (∀ v : JSVal, coalesce p.radius_m p.radius = some v → jsToNumber v = none →
        (looseNormalize p).radius_m = 500)
    ∧ ((∀ s : String, s ∈ (["混雑", "crowded", "普通", "normal"] : List String) →
          p.crowd ≠ some (JSVal.jstr s)) →
        (looseNormalize p).crowd = Crowd.empty) := by
  refine ⟨?_, ?_, ?_, ?_, ?_, ?_⟩
  · rcases hco : coalesce p.radius_m p.radius with _ | v
    · simp only [looseNormalize, hco]
      exact round_clamp_mem 500
    · rcases hn : jsToNumber v with _ | q
      · simp only [looseNormalize, hco, hn]
        norm_num
      · simp only [looseNormalize, hco, hn]
        exact round_clamp_mem q
  · intro h
    have hd : (looseNormalize p).address = strOrDefault p.address "unknown" := rfl
    rcases h with h | h | h <;> rw [hd, h] <;> decide
  · intro h
    have hd : (looseNormalize p).feature = strOrDefault p.feature "people" := rfl
    rcases h with h | h | h <;> rw [hd, h] <;> decide
  · intro h
    simp only [looseNormalize, h]
    exact round_clamp_500
  · intro v hv hn
    simp only [looseNormalize, hv, hn]
  · intro h
    have hd : (looseNormalize p).crowd = crowdOfJS p.crowd := rfl
    rw [hd]
    rcases hc : p.crowd with _ | v
    · rfl
    · cases v with
      | jnull => rfl
      | jbool b => rfl
      | jnum q => rfl
      | jstr s =>
        have h1 : s ≠ "混雑" := fun he => h "混雑" (by simp) (by rw [hc, he])
        have h2 : s ≠ "crowded" := fun he => h "crowded" (by simp) (by rw [hc, he])
        have h3 : s ≠ "普通" := fun he => h "普通" (by simp) (by rw [hc, he])
        have h4 : s ≠ "normal" := fun he => h "normal" (by simp) (by rw [hc, he])
        simp only [crowdOfJS]
        rw [if_neg (by tauto), if_neg (by tauto)]

/-- The all-absent payload (a `null` or non-object body). -/
def payloadEmpty : Payload := {}

theorem c5_looseNormalize_total_defaults_witness :
    (looseNormalize payloadEmpty).address = "unknown"
    ∧ (looseNormalize payloadEmpty).feature = "people"
    ∧ (looseNormalize payloadEmpty).radius_m = 500
    ∧ (looseNormalize payloadEmpty).crowd = Crowd.empty
    ∧ 10 ≤ (looseNormalize payloadEmpty).radius_m := by
  refine ⟨(c5_looseNormalize_total_defaults payloadEmpty).2.1 (Or.inl rfl),
    (c5_looseNormalize_total_defaults payloadEmpty).2.2.1 (Or.inl rfl),
    (c5_looseNormalize_total_defaults payloadEmpty).2.2.2.1 rfl,
    (c5_looseNormalize_total_defaults payloadEmpty).2.2.2.2.2 ?_,
    (c5_looseNormalize_total_defaults payloadEmpty).1.1⟩
  intro s hs
  simp [payloadEmpty]

lemma looseNormalize_setCrowd_congr (p : Payload) (v w : JSVal)
    (h : crowdOfJS (some v) = crowdOfJS (some w)) :
    looseNormalize (setCrowd p v) = looseNormalize (setCrowd p w) := by
  simp only [looseNormalize, setCrowd]
  rw [h]

/-- C6: crowd normalization is locale-free.  The Japanese and internal
crowd labels normalize to the same internal value, pairwise, both through
`looseNormalize` and through the schema's crowd transform; and two
payloads identical except for the crowd vocabulary produce identical
heuristic estimates and identical recomputed expected values. -/
theorem c6_crowd_locale_free (p : Payload) :
    ((looseNormalize (setCrowd p (.jstr "混雑"))).crowd
        = (looseNormalize (setCrowd p (.jstr "crowded"))).crowd
      ∧ (looseNormalize (setCrowd p (.jstr "混雑"))).crowd = Crowd.crowded)
    ∧ ((looseNormalize (setCrowd p (.jstr "空いている"))).crowd
        = (looseNormalize (setCrowd p (.jstr "empty"))).crowd
      ∧ (looseNormalize (setCrowd p (.jstr "空いている"))).crowd = Crowd.empty)
    ∧ ((looseNormalize (setCrowd p (.jstr "普通"))).crowd
        = (looseNormalize (setCrowd p (.jstr "normal"))).crowd
      ∧ (looseNormalize (setCrowd p (.jstr "普通"))).crowd = Crowd.normal)
    ∧ (schemaCrowdNormalize "混雑" = schemaCrowdNormalize "crowded"
      ∧ schemaCrowdNormalize "空いている" = schemaCrowdNormalize "empty"
      ∧ schemaCrowdNormalize "普通" = schemaCrowdNormalize "normal")
    ∧ neutralEstimate (looseNormalize (setCrowd p (.jstr "混雑")))
        = neutralEstimate (looseNormalize (setCrowd p (.jstr "crowded")))
    ∧ ∀ dp : String → Option DateInfo,
        expectedOf dp (looseNormalize (setCrowd p (.jstr "混雑")))
          = expectedOf dp (looseNormalize (setCrowd p (.jstr "crowded"))) := by
  have hcw : crowdOfJS (some (.jstr "混雑")) = crowdOfJS (some (.jstr "crowded")) := by decide
  have heq := looseNormalize_setCrowd_congr p (.jstr "混雑") (.jstr "crowded") hcw
  refine ⟨⟨?_, ?_⟩, ⟨?_, ?_⟩, ⟨?_, ?_⟩, by decide, ?_, ?_⟩
  · rw [heq]
  · show crowdOfJS (some (.jstr "混雑")) = Crowd.crowded
    decide
  · rw [looseNormalize_setCrowd_congr p (.jstr "空いている") (.jstr "empty") (by decide)]
  · show crowdOfJS (some (.jstr "空いている")) = Crowd.empty
    decide
  · rw [looseNormalize_setCrowd_congr p (.jstr "普通") (.jstr "normal") (by decide)]
  · show crowdOfJS (some (.jstr "普通")) = Crowd.normal
    decide
  · rw [heq]
  · intro dp
    rw [heq]

lemma baselineByPlace_nonneg (pl : Place) : 0 ≤ baselineByPlace pl := by
  cases pl <;> norm_num [baselineByPlace]

lemma timeFactorOf_nonneg (s : Slot) : 0 ≤ timeFactorOf s := by
  cases s <;> norm_num [timeFactorOf]

lemma crowdFactorOf_nonneg (c : Crowd) : 0 ≤ crowdFactorOf c := by
  cases c <;> norm_num [crowdFactorOf]

lemma areaOf_nonneg (r : ℤ) : 0 ≤ areaOf r := by
  have hx : (0 : ℝ) ≤ ((max 0 r : ℤ) : ℝ) / 1000 := by
    apply div_nonneg _ (by norm_num)
    exact_mod_cast le_max_left 0 r
  exact mul_nonneg (mul_nonneg Real.pi_pos.le hx) hx

lemma expectedOf_nonneg (dp : String → Option DateInfo) (i : CanonicalInput) :
    0 ≤ expectedOf dp i :=
  mul_nonneg (mul_nonneg (mul_nonneg (areaOf_nonneg _) (baselineByPlace_nonneg _))
    (timeFactorOf_nonneg _)) (crowdFactorOf_nonneg _)

lemma areaOf_mono {r₁ r₂ : ℤ} (h : r₁ ≤ r₂) : areaOf r₁ ≤ areaOf r₂ := by
  unfold areaOf
  have hx1 : (0 : ℝ) ≤ ((max 0 r₁ : ℤ) : ℝ) / 1000 := by
    apply div_nonneg _ (by norm_num)
    exact_mod_cast le_max_left 0 r₁
  have hx12 : ((max 0 r₁ : ℤ) : ℝ) / 1000 ≤ ((max 0 r₂ : ℤ) : ℝ) / 1000 := by
    apply div_le_div_of_nonneg_right ?_ (by norm_num)
    · exact_mod_cast max_le_max le_rfl h
  have hsq : 0 ≤ (((max 0 r₂ : ℤ) : ℝ) / 1000 - ((max 0 r₁ : ℤ) : ℝ) / 1000)
      * (((max 0 r₂ : ℤ) : ℝ) / 1000 + ((max 0 r₁ : ℤ) : ℝ) / 1000) :=
    mul_nonneg (by linarith) (by linarith)
  nlinarith [Real.pi_pos, hsq]

/-- C4: the recomputed baseline expected value is monotone in the radius:
two canonical inputs agreeing on address, crowd, feature and timestamp
with `r₁ ≤ r₂` satisfy `expectedOf i₁ ≤ expectedOf i₂` (for any date
parser). -/
theorem c4_expected_monotone_in_radius (dp : String → Option DateInfo)
    (i₁ i₂ : CanonicalInput) (ha : i₁.address = i₂.address) (hc : i₁.crowd = i₂.crowd)
    (hf : i₁.feature = i₂.feature) (ht : i₁.local_time_iso = i₂.local_time_iso)
    (hr : i₁.radius_m ≤ i₂.radius_m) :
    expectedOf dp i₁ ≤ expectedOf dp i₂ := by
  unfold expectedOf
  rw [ha, hc, hf, ht]
  exact mul_le_mul_of_nonneg_right
    (mul_le_mul_of_nonneg_right
      (mul_le_mul_of_nonneg_right (areaOf_mono hr) (baselineByPlace_nonneg _))
      (timeFactorOf_nonneg _))
    (crowdFactorOf_nonneg _)

/-- Generic/unknown/empty inputs at radii 500 m and 1000 m. -/
def iR500 : CanonicalInput :=
  { address := "unknown", feature := "people", crowd := .empty,
    radius_m := 500, local_time_iso := none }

def iR1000 : CanonicalInput :=
  { address := "unknown", feature := "people", crowd := .empty,
    radius_m := 1000, local_time_iso := none }

theorem c4_expected_monotone_in_radius_witness :
    expectedOf dpNone iR500 ≤ expectedOf dpNone iR1000 :=
  c4_expected_monotone_in_radius dpNone iR500 iR1000 rfl rfl rfl rfl (by decide)

lemma expected_iGen (r : ℤ) :
    expectedOf dpNone ⟨"unknown", "people", .empty, r, none⟩
      = Real.pi * (((max 0 r : ℤ) : ℝ) / 1000) * (((max 0 r : ℤ) : ℝ) / 1000) * 960 := by
  have hp : detectPlaceType "unknown" "people" = Place.generic := by decide
  show areaOf r * baselineByPlace (detectPlaceType "unknown" "people")
      * timeFactorOf (parseLocalTimeInfo dpNone none).slot * crowdFactorOf Crowd.empty = _
  rw [hp]
  show areaOf r * baselineByPlace Place.generic * timeFactorOf Slot.unknown
      * crowdFactorOf Crowd.empty = _
  unfold areaOf
  simp only [baselineByPlace, timeFactorOf, crowdFactorOf]
  ring

lemma expected_iR1000 : expectedOf dpNone iR1000 = Real.pi * 960 := by
  have h : expectedOf dpNone iR1000
      = Real.pi * (((max 0 1000 : ℤ) : ℝ) / 1000) * (((max 0 1000 : ℤ) : ℝ) / 1000) * 960 :=
    expected_iGen 1000
  rw [h, show (max 0 1000 : ℤ) = 1000 by decide]
  norm_num

/-- Generic/unknown/empty input at radius 2000 m. -/
def iR2000 : CanonicalInput :=
  { address := "unknown", feature := "people", crowd := .empty,
    radius_m := 2000, local_time_iso := none }

lemma expected_iR2000 : expectedOf dpNone iR2000 = Real.pi * 3840 := by
  have h : expectedOf dpNone iR2000
      = Real.pi * (((max 0 2000 : ℤ) : ℝ) / 1000) * (((max 0 2000 : ℤ) : ℝ) / 1000) * 960 :=
    expected_iGen 2000
  rw [h, show (max 0 2000 : ℤ) = 2000 by decide]
  norm_num
  ring

/-- C1 (amended): after the Band Validator, the count lies in the integer
plausibility band `[bandMin, bandMax]` where
`bandMin = max(0, round(expected × 0.6))` and
`bandMax = max(bandMin, round(expected × 1.8))` — the claim's band with
its endpoints rounded exactly as the code rounds them — and the validator
is idempotent on count: a count already inside the real band
`[expected × 0.6, expected × 1.8]` is returned unchanged. -/
theorem c1_validator_band_idempotent (dp : String → Option DateInfo) (out : EstimateResult)
    (i : CanonicalInput) (lang : String) :
    (bandMinOf dp i ≤ (serverSideSelfValidate dp out i lang).count
      ∧ (serverSideSelfValidate dp out i lang).count ≤ bandMaxOf dp i)
    ∧ (expectedOf dp i * 0.6 ≤ (out.count : ℝ) → (out.count : ℝ) ≤ expectedOf dp i * 1.8 →
        (serverSideSelfValidate dp out i lang).count = out.count) := by
  constructor
  · rw [validate_count_def]
    exact ⟨clampCount_lb (bandMin_le_bandMax dp i), clampCount_ub (bandMin_le_bandMax dp i)⟩
  · intro h1 h2
    have he := expectedOf_nonneg dp i
    have hc0R : (0 : ℝ) ≤ (out.count : ℝ) := le_trans (by nlinarith) h1
    have hc0 : (0 : ℤ) ≤ out.count := by exact_mod_cast hc0R
    have hlow : bandMinOf dp i ≤ out.count := by
      unfold bandMinOf
      apply max_le hc0
      rw [round_eq]
      have hm : ⌊expectedOf dp i * 0.6 + 1 / 2⌋ ≤ ⌊(out.count : ℝ) + 1 / 2⌋ :=
        Int.floor_mono (by linarith)
      have hfl : ⌊(out.count : ℝ) + 1 / 2⌋ = out.count := by
        rw [Int.floor_int_add]
        norm_num
      omega
    have hup : out.count ≤ bandMaxOf dp i := by
      unfold bandMaxOf
      refine le_trans ?_ (le_max_right _ _)
      rw [round_eq]
      apply Int.le_floor.mpr
      linarith
    rw [validate_count_def]
    exact clampCount_id hlow hup

/-- A result whose count 2000 sits comfortably inside the band at
radius 1000 m (band ≈ [1810, 5429]). -/
def out2000 : EstimateResult :=
  { count := 2000, confidence := 1/2, range := ⟨0, 0⟩, assumptions := [], notes := [] }

theorem c1_validator_band_idempotent_witness :
    (serverSideSelfValidate dpNone out2000 iR1000 "en").count = 2000 := by
  have hc : (out2000.count : ℝ) = 2000 := by norm_num [out2000]
  have h := (c1_validator_band_idempotent dpNone out2000 iR1000 "en").2
  rw [expected_iR1000, hc] at h
  have hA : Real.pi * 960 * 0.6 ≤ (2000 : ℝ) := by
    have := Real.pi_lt_d6
    nlinarith
  have hB : (2000 : ℝ) ≤ Real.pi * 960 * 1.8 := by
    have := Real.pi_gt_d6
    nlinarith
  rw [h hA hB]
  rfl

/-- A result whose count equals `round(0.6·expected)` at radius 2000 m:
7238 = round(2304π) while 2304π ≈ 7238.23, so the final count stays
strictly below the real-valued band floor `expected × 0.6`. -/
def outCE : EstimateResult :=
  { count := 7238, confidence := 1/2, range := ⟨0, 0⟩, assumptions := [], notes := [] }

/-- C1 counterexample: at the concrete input (address "unknown", feature
"people", crowd empty, radius 2000 m, no timestamp) and incoming count
7238, the validated count (7238, unchanged) is strictly below
`expected × 0.6`, refuting the claim that the output count always lies
within the real band `[expected × 0.6, expected × 1.8]`. -/
theorem c1_count_below_real_band :
    ((serverSideSelfValidate dpNone outCE iR2000 "en").count : ℝ)
      < expectedOf dpNone iR2000 * 0.6 := by
  have he := expected_iR2000
  have hg := Real.pi_gt_d6
  have hl := Real.pi_lt_d6
  have hround : round (expectedOf dpNone iR2000 * 0.6) = 7238 := by
    rw [he, round_eq]
    have h1 : ((7238 : ℤ) : ℝ) ≤ Real.pi * 3840 * 0.6 + 1 / 2 := by
      push_cast
      nlinarith
    have h2 : Real.pi * 3840 * 0.6 + 1 / 2 < (7238 : ℤ) + 1 := by
      push_cast
      nlinarith
    exact Int.floor_eq_iff.mpr ⟨h1, h2⟩
  have hbmin : bandMinOf dpNone iR2000 = 7238 := by
    unfold bandMinOf
    rw [hround]
    exact max_eq_right (by norm_num)
  have hcount : (serverSideSelfValidate dpNone outCE iR2000 "en").count = 7238 := by
    rw [validate_count_def]
    have hbm : (7238 : ℤ) ≤ bandMaxOf dpNone iR2000 := hbmin ▸ bandMin_le_bandMax dpNone iR2000
    have hc7 : outCE.count = 7238 := rfl
    have h1 : bandMinOf dpNone iR2000 ≤ outCE.count := by rw [hbmin, hc7]
    have h2 : outCE.count ≤ bandMaxOf dpNone iR2000 := by rw [hc7]; exact hbm
    rw [clampCount_id h1 h2, hc7]
  rw [hcount, he]
  push_cast
  nlinarith

lemma validate_notes_def (dp : String → Option DateInfo) (out : EstimateResult)
    (i : CanonicalInput) (lang : String) :
    (serverSideSelfValidate dp out i lang).notes
      = (out.notes ++
          [selfCheckNote lang (round (expectedOf dp i)) (bandMinOf dp i) (bandMaxOf dp i),
           adjustNote lang (decide (out.count < bandMinOf dp i)
             || decide (bandMaxOf dp i < out.count)),
           calcNote (round (areaOf i.radius_m * 1000000))
             (baselineByPlaceZ (detectPlaceType i.address i.feature))
             (timeFactorText (parseLocalTimeInfo dp i.local_time_iso).slot)
             (crowdFactorText i.crowd) (round (expectedOf dp i)) (bandMinOf dp i)
             (bandMaxOf dp i)]).take 10 := rfl

/-- Eight pre-existing notes (the maximum the repair stage can hand over). -/
def notes8 : List String := ["n1", "n2", "n3", "n4", "n5", "n6", "n7", "n8"]

/-- An incoming result carrying eight notes and a count of 0 (so the
validator clamps and reports an adjustment). -/
def outNotes8 : EstimateResult :=
  { count := 0, confidence := 1/2, range := ⟨0, 0⟩, assumptions := [], notes := notes8 }

/-- C3 (code bug): with eight incoming notes, `notes.slice(0, 10)` keeps
the ten OLDEST entries: the output equals the eight old notes plus only
the self-check and adjustment notes — the freshly appended `calc:` note
(the newest entry) is dropped, contradicting the claim that the oldest
entries are dropped first and the newest kept. -/
theorem c3_notes_cap_drops_newest :
    (serverSideSelfValidate dpNone outNotes8 iR1000 "en").notes
      = notes8 ++
        [selfCheckNote "en" (round (expectedOf dpNone iR1000)) (bandMinOf dpNone iR1000)
          (bandMaxOf dpNone iR1000),
         adjustNote "en" true]
    ∧ (serverSideSelfValidate dpNone outNotes8 iR1000 "en").notes.length = 10 := by
  have hbpos : 0 < bandMinOf dpNone iR1000 := by
    have h1 : (1 : ℤ) ≤ round (expectedOf dpNone iR1000 * 0.6) := by
      rw [expected_iR1000, round_eq]
      apply Int.le_floor.mpr
      have := Real.pi_gt_three
      push_cast
      nlinarith
    have h2 := le_max_right (0 : ℤ) (round (expectedOf dpNone iR1000 * 0.6))
    unfold bandMinOf
    omega
  have hch : (decide (outNotes8.count < bandMinOf dpNone iR1000)
      || decide (bandMaxOf dpNone iR1000 < outNotes8.count)) = true := by
    have h0 : outNotes8.count = 0 := rfl
    rw [Bool.or_eq_true, decide_eq_true_eq, decide_eq_true_eq, h0]
    left
    exact hbpos
  constructor
  · rw [validate_notes_def, hch]
    rfl
  · rw [validate_notes_def, hch]
    rfl
